import Mathlib

/-!
Verification of the JNI bridge `com_jme3_bullet_objects_PhysicsSoftBody.cpp`
(jme3-bullet-native), which exposes the wrapped physics engine's soft-body
object (`btSoftBody`) to the Java front end.

Each exported `Java_com_jme3_bullet_objects_PhysicsSoftBody_*` function is
embedded as a Lean function.  A `jlong` handle whose value is `0` reinterprets
to the C null pointer, so a soft-body handle is modelled as `Option SoftBody`
(`none` is the null handle) and secondary handles (rigid bodies, world infos,
materials) as natural numbers with `0` as null.  A direct NIO buffer is
modelled as the list of its elements (its capacity is the list length).
A JNI function that calls `ThrowNew` and then returns is modelled as returning
the pending exception together with its C return value, so each operation
returns a pair `(Option JavaException × result)`.

The wrapped engine (`btSoftBody` itself) is not part of this repository; its
mesh-construction primitives are modelled from the spec, which describes them
as "node/link/face/tetra appending, mass assignment, anchoring to rigid
bodies": each primitive appends to, or updates, the corresponding collection
of the soft body.  The `jfloat` scalars are modelled as exact values (`ℚ`)
because the bridge only copies them between buffers and engine calls and the
claims involve no floating-point arithmetic.
-/

set_option autoImplicit false

namespace PhysicsSoftBody

/-- Scalar carrier for `jfloat` values moved across the boundary. -/
abbrev JFloat := ℚ

/-- Handle of a `btRigidBody`; `0` models the null pointer. -/
abbrev RigidId := Nat

/-- The engine math vector `btVector3` (only its three components matter here). -/
structure Vec3 where
  x : JFloat
  y : JFloat
  z : JFloat
  deriving DecidableEq

/-- The managed-side math vector `com.jme3.math.Vector3f`. -/
structure Vector3f where
  x : JFloat
  y : JFloat
  z : JFloat
  deriving DecidableEq

/-- A pending Java exception, as raised by `env->ThrowNew(cls, msg)`. -/
structure JavaException where
  className : String
  message : String
  deriving DecidableEq

/-- The exception every null-handle check raises:
`FindClass("java/lang/NullPointerException")` (the JNI descriptor of
`java.lang.NullPointerException`) with the fixed message. -/
def npe : JavaException :=
  { className := "java/lang/NullPointerException"
    message := "The native object does not exist." }

/-- A node (`btSoftBody::Node`): position `m_x`, its mass, and the
attachment flag `m_battach` (1 when anchored, 0 by default). -/
structure SBNode where
  pos : Vec3
  mass : JFloat
  battach : Int
  deriving DecidableEq

/-- An anchor (`btSoftBody::Anchor`).  The source stores a pointer
`m_node` into the node array, modelled as the node's index `nodeIdx`;
`m_body` is the anchored rigid body, modelled by its handle. -/
structure Anchor where
  nodeIdx : Nat
  body : RigidId
  localPivot : Option Vec3
  disableCollision : Bool
  influence : JFloat
  deriving DecidableEq

/-- A material (`btSoftBody::Material`): the linear, angular and volume
stiffness coefficients and the flags field. -/
structure Material where
  kLST : JFloat
  kAST : JFloat
  kVST : JFloat
  flags : Int
  deriving DecidableEq

/-- The modelled state of a `btSoftBody`: its node, link, face, tetra,
anchor and material arrays, its world-info handle, the collision shape's
margin, the user pointer and the broadphase handle (`0` when the body is
not in a world). -/
structure SoftBody where
  nodes : List SBNode
  links : List (Int × Int)
  faces : List (Int × Int × Int)
  tetras : List (Int × Int × Int × Int)
  anchors : List Anchor
  materials : List Material
  worldInfo : Nat
  margin : JFloat
  userPointer : Nat
  broadphaseHandle : Nat
  deriving DecidableEq

/-- Update the node at index `i` (identity when `i` is out of range; an
out-of-range node access is undefined behaviour in the source, and every
claim only exercises in-range indices). -/
def updateNodeAt : List SBNode → Nat → (SBNode → SBNode) → List SBNode
  | [], _, _ => []
  | nd :: rest, 0, f => f nd :: rest
  | nd :: rest, i + 1, f => nd :: updateNodeAt rest i f

/-- Modelled from the spec: the engine primitive `btSoftBody::appendNode(x, m)`
appends one node with position `x` and mass `m` (not yet attached). -/
def SoftBody.appendNode (b : SoftBody) (v : Vec3) (m : JFloat) : SoftBody :=
  { b with nodes := b.nodes ++ [SBNode.mk v m 0] }

/-- Modelled from the spec: the engine primitive `btSoftBody::appendLink(i, j)`
appends one link between the nodes with indices `i` and `j`. -/
def SoftBody.appendLink (b : SoftBody) (i j : Int) : SoftBody :=
  { b with links := b.links ++ [(i, j)] }

/-- Modelled from the spec: the engine primitive `btSoftBody::appendFace`
appends one face over three node indices. -/
def SoftBody.appendFace (b : SoftBody) (i j k : Int) : SoftBody :=
  { b with faces := b.faces ++ [(i, j, k)] }

/-- Modelled from the spec: the engine primitive `btSoftBody::appendTetra`
appends one tetrahedron over four node indices. -/
def SoftBody.appendTetra (b : SoftBody) (i j k l : Int) : SoftBody :=
  { b with tetras := b.tetras ++ [(i, j, k, l)] }

/-- Modelled from the spec: the engine primitive `btSoftBody::setMass(i, m)`
assigns mass `m` to node `i`. -/
def SoftBody.setMassAt (b : SoftBody) (i : Nat) (m : JFloat) : SoftBody :=
  { b with nodes := updateNodeAt b.nodes i (fun nd => { nd with mass := m }) }

/-- Modelled from the spec: the engine primitive `btSoftBody::getMass(i)`
reads the mass of node `i` (out of range is undefined behaviour in the
source; modelled as `0`, and no claim exercises it). -/
def SoftBody.getMassAt (b : SoftBody) (i : Nat) : JFloat :=
  match b.nodes[i]? with
  | some nd => nd.mass
  | none => 0

/-- Modelled from the spec: the engine primitive `btSoftBody::appendMaterial`
appends one zero-initialised material and hands it to the caller (modelled by
returning the body; the fresh material is the last entry of `materials`). -/
def SoftBody.appendMaterial (b : SoftBody) : SoftBody :=
  { b with materials := b.materials ++ [Material.mk 0 0 0 0] }

/-- Modelled from the spec: the engine overload
`btSoftBody::appendAnchor(node, body, localPivot, disableCollision, influence)`
appends one anchor carrying the given local pivot and marks the node attached. -/
def SoftBody.appendAnchorPivot (b : SoftBody) (nodeId : Nat) (rigid : RigidId)
    (pivot : Vec3) (disableCollision : Bool) (influence : JFloat) : SoftBody :=
  { b with
    anchors := b.anchors ++
      [Anchor.mk nodeId rigid (some pivot) disableCollision influence]
    nodes := updateNodeAt b.nodes nodeId (fun nd => { nd with battach := 1 }) }

/-- Modelled from the spec: the engine overload
`btSoftBody::appendAnchor(node, body, disableCollision, influence)` without a
local pivot (the engine derives the pivot itself, so none is recorded). -/
def SoftBody.appendAnchorNoPivot (b : SoftBody) (nodeId : Nat) (rigid : RigidId)
    (disableCollision : Bool) (influence : JFloat) : SoftBody :=
  { b with
    anchors := b.anchors ++
      [Anchor.mk nodeId rigid none disableCollision influence]
    nodes := updateNodeAt b.nodes nodeId (fun nd => { nd with battach := 1 }) }

/-- Modelled from the spec: `btSoftBody::generateBendingConstraints` lives
entirely in the wrapped engine and the spec puts constraint generation out of
scope, so its effect on the body is left unmodelled; only the bridge's
null-handle path of this operation is claimed. -/
def SoftBody.generateBending (b : SoftBody) (_dist : Int) (_matId : Nat) : SoftBody :=
  b

/-- Modelled from the spec: `new btSoftBody(worldInfo)` constructs an empty
soft body (no nodes, links, faces, tetras, anchors or materials) that is in no
world.  The constructor's initial collision-shape margin and user pointer are
chosen by the wrapped engine, so they are taken as parameters. -/
def newSoftBody (wi : Nat) (initialMargin : JFloat) (initialUserPtr : Nat) : SoftBody :=
  { nodes := [], links := [], faces := [], tetras := [], anchors := []
    materials := [], worldInfo := wi, margin := initialMargin
    userPointer := initialUserPtr, broadphaseHandle := 0 }

/-- Modelled from the spec: `jmeBulletUtil::convert` (declared in
`jmeBulletUtil.h`, not under `src/`) copies the three components of a
`com.jme3.math.Vector3f` into a `btVector3`. -/
def jmeBulletUtil.convert (v : Vector3f) : Vec3 :=
  { x := v.x, y := v.y, z := v.z }

/-- `Java_com_jme3_bullet_objects_PhysicsSoftBody_createEmptySoftBody`:
allocates a world info (a fresh non-null handle, modelled as `1`) and an empty
soft body, sets the collision shape's margin to `0`, appends the default
material and sets its `m_kLST`, `m_kAST`, `m_kVST` to `1` and `m_flags` to
`0`, and nulls the user pointer.  `m0` and `up0` are the engine constructor's
initial margin and user pointer. -/
def createEmptySoftBody (m0 : JFloat) (up0 : Nat) : SoftBody :=
  let body := newSoftBody 1 m0 up0
  let body := { body with margin := 0 }
  let body := body.appendMaterial
  let body :=
    { body with
      materials := body.materials.dropLast ++ [Material.mk 1 1 1 0] }
  { body with userPointer := 0 }

/-- Loop of `appendNodes`: with `capacity = C - 2` and three reads per
iteration, the loop body runs exactly while at least three floats remain. -/
def appendNodesLoop (b : SoftBody) : List JFloat → SoftBody
  | x :: y :: z :: rest => appendNodesLoop (b.appendNode (Vec3.mk x y z) 1) rest
  | _ => b

/-- `Java_com_jme3_bullet_objects_PhysicsSoftBody_appendNodes`. -/
def appendNodes (body : Option SoftBody) (buf : List JFloat) :
    Option JavaException × Option SoftBody :=
  match body with
  | none => (some npe, none)
  | some b => (none, some (appendNodesLoop b buf))

/-- Loop shared by the three `appendLinks` variants (byte, short and int
buffers; the element widths are all modelled as integers): with
`capacity = C - 1` and two reads per iteration, the loop body runs exactly
while at least two indices remain.  The source's call
`appendLink(link[i++], link[i++])` leaves the order of its two argument reads
unsequenced, so this embedding fixes one allowed execution — left-to-right
argument evaluation; `appendLinksLoopOrd` below is the order-parametric
embedding. -/
def appendLinksLoop (b : SoftBody) : List Int → SoftBody
  | i :: j :: rest => appendLinksLoop (b.appendLink i j) rest
  | _ => b

/-- `Java_com_jme3_bullet_objects_PhysicsSoftBody_appendLinks__JLjava_nio_ByteBuffer_2`. -/
def appendLinksByte (body : Option SoftBody) (buf : List Int) :
    Option JavaException × Option SoftBody :=
  match body with
  | none => (some npe, none)
  | some b => (none, some (appendLinksLoop b buf))

/-- `Java_com_jme3_bullet_objects_PhysicsSoftBody_appendLinks__JLjava_nio_ShortBuffer_2`. -/
def appendLinksShort (body : Option SoftBody) (buf : List Int) :
    Option JavaException × Option SoftBody :=
  match body with
  | none => (some npe, none)
  | some b => (none, some (appendLinksLoop b buf))

/-- `Java_com_jme3_bullet_objects_PhysicsSoftBody_appendLinks__JLjava_nio_IntBuffer_2`. -/
def appendLinksInt (body : Option SoftBody) (buf : List Int) :
    Option JavaException × Option SoftBody :=
  match body with
  | none => (some npe, none)
  | some b => (none, some (appendLinksLoop b buf))

/-- Loop shared by the three `appendFaces` variants: `capacity = C - 2`,
three reads per iteration.  As with `appendLinksLoop`, the source leaves the
order of the three `face[i++]` argument reads unsequenced; this embedding
fixes the left-to-right execution and `appendFacesLoopOrd` below is the
order-parametric embedding. -/
def appendFacesLoop (b : SoftBody) : List Int → SoftBody
  | i :: j :: k :: rest => appendFacesLoop (b.appendFace i j k) rest
  | _ => b

/-- `Java_com_jme3_bullet_objects_PhysicsSoftBody_appendFaces__JLjava_nio_ByteBuffer_2`. -/
def appendFacesByte (body : Option SoftBody) (buf : List Int) :
    Option JavaException × Option SoftBody :=
  match body with
  | none => (some npe, none)
  | some b => (none, some (appendFacesLoop b buf))

/-- `Java_com_jme3_bullet_objects_PhysicsSoftBody_appendFaces__JLjava_nio_ShortBuffer_2`. -/
def appendFacesShort (body : Option SoftBody) (buf : List Int) :
    Option JavaException × Option SoftBody :=
  match body with
  | none => (some npe, none)
  | some b => (none, some (appendFacesLoop b buf))

/-- `Java_com_jme3_bullet_objects_PhysicsSoftBody_appendFaces__JLjava_nio_IntBuffer_2`. -/
def appendFacesInt (body : Option SoftBody) (buf : List Int) :
    Option JavaException × Option SoftBody :=
  match body with
  | none => (some npe, none)
  | some b => (none, some (appendFacesLoop b buf))

/-- Loop shared by the three `appendTetras` variants: `capacity = C - 3`,
four reads per iteration.  As with `appendLinksLoop`, the source leaves the
order of the four `tetra[i++]` argument reads unsequenced; this embedding
fixes the left-to-right execution and `appendTetrasLoopOrd` below is the
order-parametric embedding. -/
def appendTetrasLoop (b : SoftBody) : List Int → SoftBody
  | i :: j :: k :: l :: rest => appendTetrasLoop (b.appendTetra i j k l) rest
  | _ => b

/-- `Java_com_jme3_bullet_objects_PhysicsSoftBody_appendTetras__JLjava_nio_ByteBuffer_2`. -/
def appendTetrasByte (body : Option SoftBody) (buf : List Int) :
    Option JavaException × Option SoftBody :=
  match body with
  | none => (some npe, none)
  | some b => (none, some (appendTetrasLoop b buf))

/-- `Java_com_jme3_bullet_objects_PhysicsSoftBody_appendTetras__JLjava_nio_ShortBuffer_2`. -/
def appendTetrasShort (body : Option SoftBody) (buf : List Int) :
    Option JavaException × Option SoftBody :=
  match body with
  | none => (some npe, none)
  | some b => (none, some (appendTetrasLoop b buf))

/-- `Java_com_jme3_bullet_objects_PhysicsSoftBody_appendTetras__JLjava_nio_IntBuffer_2`. -/
def appendTetrasInt (body : Option SoftBody) (buf : List Int) :
    Option JavaException × Option SoftBody :=
  match body with
  | none => (some npe, none)
  | some b => (none, some (appendTetrasLoop b buf))

/-- `Java_com_jme3_bullet_objects_PhysicsSoftBody_getNbNodes`. -/
def getNbNodes (body : Option SoftBody) : Option JavaException × Int :=
  match body with
  | none => (some npe, 0)
  | some b => (none, b.nodes.length)

/-- `Java_com_jme3_bullet_objects_PhysicsSoftBody_getNbLinks`. -/
def getNbLinks (body : Option SoftBody) : Option JavaException × Int :=
  match body with
  | none => (some npe, 0)
  | some b => (none, b.links.length)

/-- `Java_com_jme3_bullet_objects_PhysicsSoftBody_getNbFaces`. -/
def getNbFaces (body : Option SoftBody) : Option JavaException × Int :=
  match body with
  | none => (some npe, 0)
  | some b => (none, b.faces.length)

/-- `Java_com_jme3_bullet_objects_PhysicsSoftBody_getNbTetras`. -/
def getNbTetras (body : Option SoftBody) : Option JavaException × Int :=
  match body with
  | none => (some npe, 0)
  | some b => (none, b.tetras.length)

/-- Coordinate stream written by the `getNodesPositions` loop: the three
components of `m_x` of each node, in node order. -/
def nodeCoords : List SBNode → List JFloat
  | [] => []
  | nd :: rest => nd.pos.x :: nd.pos.y :: nd.pos.z :: nodeCoords rest

/-- `Java_com_jme3_bullet_objects_PhysicsSoftBody_getNodesPositions`: writes
`3 * size` floats into the front of the buffer and leaves the rest (the
source performs no capacity check; a buffer shorter than `3 * size` overflows,
which is undefined behaviour, and the claims assume sufficient capacity). -/
def getNodesPositions (body : Option SoftBody) (buf : List JFloat) :
    Option JavaException × List JFloat :=
  match body with
  | none => (some npe, buf)
  | some b => (none, nodeCoords b.nodes ++ buf.drop (nodeCoords b.nodes).length)

/-- `Java_com_jme3_bullet_objects_PhysicsSoftBody_setSoftBodyWorldInfo`:
null-checks both handles, then assigns the body's `m_worldInfo` field
directly. -/
def setSoftBodyWorldInfo (body : Option SoftBody) (worldId : Nat) :
    Option JavaException × Option SoftBody :=
  match body with
  | none => (some npe, none)
  | some b =>
    if worldId = 0 then (some npe, some b)
    else (none, some { b with worldInfo := worldId })

/-- `Java_com_jme3_bullet_objects_PhysicsSoftBody_appendAnchor`: null-checks
the body and the rigid body, then selects the engine overload by whether
`localPivot` is null, negating `collisionBetweenLinkedBodies` into the
engine's disable-collision flag. -/
def appendAnchor (body : Option SoftBody) (nodeId : Nat) (rigidId : RigidId)
    (localPivot : Option Vector3f) (collisionBetweenLinkedBodies : Bool)
    (influence : JFloat) : Option JavaException × Option SoftBody :=
  match body with
  | none => (some npe, none)
  | some b =>
    if rigidId = 0 then (some npe, some b)
    else
      match localPivot with
      | some p =>
        (none, some (b.appendAnchorPivot nodeId rigidId (jmeBulletUtil.convert p)
          (!collisionBetweenLinkedBodies) influence))
      | none =>
        (none, some (b.appendAnchorNoPivot nodeId rigidId
          (!collisionBetweenLinkedBodies) influence))

/-- The search condition of the `removeAnchor` loop:
`m_anchors[i].m_node == &m_nodes[nodeId] && m_anchors[i].m_body == rigid`
(pointer equality into the node array is index equality). -/
def anchorMatches (a : Anchor) (nodeId : Nat) (rigid : RigidId) : Bool :=
  a.nodeIdx == nodeId && a.body == rigid

/-- Index of the first anchor matching the `removeAnchor` loop condition
(the loop breaks at the first hit). -/
def findMatchIdx (nodeId : Nat) (rigid : RigidId) : List Anchor → Option Nat
  | [] => none
  | a :: rest =>
    if anchorMatches a nodeId rigid then some 0
    else (findMatchIdx nodeId rigid rest).map (· + 1)

/-- The `swap(i, size - 1); pop_back()` removal of the `removeAnchor` loop:
element `i` is overwritten with the last element and the last slot popped. -/
def swapPopAt (l : List Anchor) (i : Nat) : List Anchor :=
  match l.getLast? with
  | none => []
  | some last => (l.set i last).dropLast

/-- `Java_com_jme3_bullet_objects_PhysicsSoftBody_removeAnchor`: null-checks
both handles; then scans `m_anchors` for the first anchor of node `nodeId` on
the given rigid body, and if one exists removes it by swap-with-last and
pop-back, resets that node's `m_battach` to `0` and breaks.  This removal is
implemented directly in the bridge file, not by an engine call. -/
def removeAnchor (body : Option SoftBody) (nodeId : Nat) (rigidId : RigidId) :
    Option JavaException × Option SoftBody :=
  match body with
  | none => (some npe, none)
  | some b =>
    if rigidId = 0 then (some npe, some b)
    else
      match findMatchIdx nodeId rigidId b.anchors with
      | some i =>
        (none, some
          { b with
            anchors := swapPopAt b.anchors i
            nodes := updateNodeAt b.nodes nodeId (fun nd => { nd with battach := 0 }) })
      | none => (none, some b)

/-- `Java_com_jme3_bullet_objects_PhysicsSoftBody_setMass`. -/
def setMass (body : Option SoftBody) (nodeId : Nat) (mass : JFloat) :
    Option JavaException × Option SoftBody :=
  match body with
  | none => (some npe, none)
  | some b => (none, some (b.setMassAt nodeId mass))

/-- `Java_com_jme3_bullet_objects_PhysicsSoftBody_getMass`. -/
def getMass (body : Option SoftBody) (nodeId : Nat) : Option JavaException × JFloat :=
  match body with
  | none => (some npe, 0)
  | some b => (none, b.getMassAt nodeId)

/-- Loop of `setMasses`: `body->setMass(i, masses[i])` for every
`i < capacity` (the buffer's capacity, not the node count), starting at `i`. -/
def setMassesLoop (b : SoftBody) (i : Nat) : List JFloat → SoftBody
  | [] => b
  | m :: rest => setMassesLoop (b.setMassAt i m) (i + 1) rest

/-- `Java_com_jme3_bullet_objects_PhysicsSoftBody_setMasses`. -/
def setMasses (body : Option SoftBody) (buf : List JFloat) :
    Option JavaException × Option SoftBody :=
  match body with
  | none => (some npe, none)
  | some b => (none, some (setMassesLoop b 0 buf))

/-- Loop of `getMasses`: `masses[i] = body->getMass(i)` for every
`i < capacity`, overwriting the whole buffer. -/
def getMassesLoop (b : SoftBody) (i : Nat) : List JFloat → List JFloat
  | [] => []
  | _ :: rest => b.getMassAt i :: getMassesLoop b (i + 1) rest

/-- `Java_com_jme3_bullet_objects_PhysicsSoftBody_getMasses`. -/
def getMasses (body : Option SoftBody) (buf : List JFloat) :
    Option JavaException × List JFloat :=
  match body with
  | none => (some npe, buf)
  | some b => (none, getMassesLoop b 0 buf)

/-- `Java_com_jme3_bullet_objects_PhysicsSoftBody_generateBendingConstraints`:
null-checks the body and the material handle before delegating. -/
def generateBendingConstraints (body : Option SoftBody) (dist : Int) (matId : Nat) :
    Option JavaException × Option SoftBody :=
  match body with
  | none => (some npe, none)
  | some b =>
    if matId = 0 then (some npe, some b)
    else (none, some (b.generateBending dist matId))

/-- `Java_com_jme3_bullet_objects_PhysicsSoftBody_isInWorld`:
`body->getBroadphaseHandle() != 0`. -/
def isInWorld (body : Option SoftBody) : Option JavaException × Bool :=
  match body with
  | none => (some npe, false)
  | some b => (none, b.broadphaseHandle != 0)

/-- Complete leading pairs of a buffer, as consumed by the `appendLinks`
loops: stops as soon as fewer than two elements remain. -/
def pairGroups {α : Type} : List α → List (α × α)
  | a :: b :: rest => (a, b) :: pairGroups rest
  | _ => []

/-- Complete leading triples of a buffer, as consumed by the `appendNodes`
and `appendFaces` loops. -/
def tripleGroups {α : Type} : List α → List (α × α × α)
  | a :: b :: c :: rest => (a, b, c) :: tripleGroups rest
  | _ => []

/-- Complete leading quadruples of a buffer, as consumed by the
`appendTetras` loops. -/
def quadGroups {α : Type} : List α → List (α × α × α × α)
  | a :: b :: c :: d :: rest => (a, b, c, d) :: quadGroups rest
  | _ => []

/-!
The calls `appendLink(link[i++], link[i++])`, `appendFace(face[i++], ...)`
and `appendTetra(tetra[i++], ...)` leave the order of their argument
evaluations unsequenced (undefined behaviour before C++17, indeterminately
sequenced from C++17 on), so the source fixes neither which buffer element
lands in which argument position, only that each iteration performs one read
per argument.  The order-parametric embedding below takes, for every
iteration, the compiler-chosen evaluation order as a permutation
`ρ : Equiv.Perm (Fin c)` mapping each argument position to the rank of its
read: position `p` receives the `ρ p`-th element of the iteration's
consecutive group.  The identity permutation is left-to-right evaluation
(recovering `pairGroups`/`tripleGroups`/`quadGroups`); the reversal
permutation is right-to-left evaluation, which passes each group reversed.
-/

/-- Value of the rank-`r` buffer read of a two-read iteration whose
consecutive elements are `a` then `b`. -/
def readAt2 (a b : Int) (r : Fin 2) : Int :=
  if r = 0 then a else b

/-- Value of the rank-`r` buffer read of a three-read iteration. -/
def readAt3 (x y z : Int) (r : Fin 3) : Int :=
  if r = 0 then x else if r = 1 then y else z

/-- Value of the rank-`r` buffer read of a four-read iteration. -/
def readAt4 (x y z w : Int) (r : Fin 4) : Int :=
  if r = 0 then x else if r = 1 then y else if r = 2 then z else w

/-- Links built by the `appendLinks` loop starting at iteration `k` when
iteration `n` evaluates its two arguments in the order `ord n`. -/
def pairGroupsOrd (ord : Nat → Equiv.Perm (Fin 2)) : Nat → List Int → List (Int × Int)
  | k, a :: b :: rest =>
    (readAt2 a b (ord k 0), readAt2 a b (ord k 1)) :: pairGroupsOrd ord (k + 1) rest
  | _, _ => []

/-- Faces built by the `appendFaces` loop starting at iteration `k` when
iteration `n` evaluates its three arguments in the order `ord n`. -/
def tripleGroupsOrd (ord : Nat → Equiv.Perm (Fin 3)) : Nat → List Int → List (Int × Int × Int)
  | k, x :: y :: z :: rest =>
    (readAt3 x y z (ord k 0), readAt3 x y z (ord k 1), readAt3 x y z (ord k 2)) ::
      tripleGroupsOrd ord (k + 1) rest
  | _, _ => []

/-- Tetrahedra built by the `appendTetras` loop starting at iteration `k`
when iteration `n` evaluates its four arguments in the order `ord n`. -/
def quadGroupsOrd (ord : Nat → Equiv.Perm (Fin 4)) :
    Nat → List Int → List (Int × Int × Int × Int)
  | k, x :: y :: z :: w :: rest =>
    (readAt4 x y z w (ord k 0), readAt4 x y z w (ord k 1), readAt4 x y z w (ord k 2),
      readAt4 x y z w (ord k 3)) :: quadGroupsOrd ord (k + 1) rest
  | _, _ => []

/-- Order-parametric `appendLinks` loop: iteration `k` reads the next two
buffer elements once each and passes them to `appendLink` arranged by the
evaluation order `ord k`. -/
def appendLinksLoopOrd (ord : Nat → Equiv.Perm (Fin 2)) : SoftBody → Nat → List Int → SoftBody
  | b, k, i :: j :: rest =>
    appendLinksLoopOrd ord (b.appendLink (readAt2 i j (ord k 0)) (readAt2 i j (ord k 1)))
      (k + 1) rest
  | b, _, _ => b

/-- `Java_com_jme3_bullet_objects_PhysicsSoftBody_appendLinks__JLjava_nio_ByteBuffer_2`
under argument-evaluation order `ord`. -/
def appendLinksByteOrd (ord : Nat → Equiv.Perm (Fin 2)) (body : Option SoftBody)
    (buf : List Int) : Option JavaException × Option SoftBody :=
  match body with
  | none => (some npe, none)
  | some b => (none, some (appendLinksLoopOrd ord b 0 buf))

/-- `Java_com_jme3_bullet_objects_PhysicsSoftBody_appendLinks__JLjava_nio_ShortBuffer_2`
under argument-evaluation order `ord`. -/
def appendLinksShortOrd (ord : Nat → Equiv.Perm (Fin 2)) (body : Option SoftBody)
    (buf : List Int) : Option JavaException × Option SoftBody :=
  match body with
  | none => (some npe, none)
  | some b => (none, some (appendLinksLoopOrd ord b 0 buf))

/-- `Java_com_jme3_bullet_objects_PhysicsSoftBody_appendLinks__JLjava_nio_IntBuffer_2`
under argument-evaluation order `ord`. -/
def appendLinksIntOrd (ord : Nat → Equiv.Perm (Fin 2)) (body : Option SoftBody)
    (buf : List Int) : Option JavaException × Option SoftBody :=
  match body with
  | none => (some npe, none)
  | some b => (none, some (appendLinksLoopOrd ord b 0 buf))

/-- Order-parametric `appendFaces` loop. -/
def appendFacesLoopOrd (ord : Nat → Equiv.Perm (Fin 3)) : SoftBody → Nat → List Int → SoftBody
  | b, k, x :: y :: z :: rest =>
    appendFacesLoopOrd ord (b.appendFace (readAt3 x y z (ord k 0)) (readAt3 x y z (ord k 1))
      (readAt3 x y z (ord k 2))) (k + 1) rest
  | b, _, _ => b

/-- `Java_com_jme3_bullet_objects_PhysicsSoftBody_appendFaces__JLjava_nio_ByteBuffer_2`
under argument-evaluation order `ord`. -/
def appendFacesByteOrd (ord : Nat → Equiv.Perm (Fin 3)) (body : Option SoftBody)
    (buf : List Int) : Option JavaException × Option SoftBody :=
  match body with
  | none => (some npe, none)
  | some b => (none, some (appendFacesLoopOrd ord b 0 buf))

/-- `Java_com_jme3_bullet_objects_PhysicsSoftBody_appendFaces__JLjava_nio_ShortBuffer_2`
under argument-evaluation order `ord`. -/
def appendFacesShortOrd (ord : Nat → Equiv.Perm (Fin 3)) (body : Option SoftBody)
    (buf : List Int) : Option JavaException × Option SoftBody :=
  match body with
  | none => (some npe, none)
  | some b => (none, some (appendFacesLoopOrd ord b 0 buf))

/-- `Java_com_jme3_bullet_objects_PhysicsSoftBody_appendFaces__JLjava_nio_IntBuffer_2`
under argument-evaluation order `ord`. -/
def appendFacesIntOrd (ord : Nat → Equiv.Perm (Fin 3)) (body : Option SoftBody)
    (buf : List Int) : Option JavaException × Option SoftBody :=
  match body with
  | none => (some npe, none)
  | some b => (none, some (appendFacesLoopOrd ord b 0 buf))

/-- Order-parametric `appendTetras` loop. -/
def appendTetrasLoopOrd (ord : Nat → Equiv.Perm (Fin 4)) : SoftBody → Nat → List Int → SoftBody
  | b, k, x :: y :: z :: w :: rest =>
    appendTetrasLoopOrd ord (b.appendTetra (readAt4 x y z w (ord k 0))
      (readAt4 x y z w (ord k 1)) (readAt4 x y z w (ord k 2)) (readAt4 x y z w (ord k 3)))
      (k + 1) rest
  | b, _, _ => b

/-- `Java_com_jme3_bullet_objects_PhysicsSoftBody_appendTetras__JLjava_nio_ByteBuffer_2`
under argument-evaluation order `ord`. -/
def appendTetrasByteOrd (ord : Nat → Equiv.Perm (Fin 4)) (body : Option SoftBody)
    (buf : List Int) : Option JavaException × Option SoftBody :=
  match body with
  | none => (some npe, none)
  | some b => (none, some (appendTetrasLoopOrd ord b 0 buf))

/-- `Java_com_jme3_bullet_objects_PhysicsSoftBody_appendTetras__JLjava_nio_ShortBuffer_2`
under argument-evaluation order `ord`. -/
def appendTetrasShortOrd (ord : Nat → Equiv.Perm (Fin 4)) (body : Option SoftBody)
    (buf : List Int) : Option JavaException × Option SoftBody :=
  match body with
  | none => (some npe, none)
  | some b => (none, some (appendTetrasLoopOrd ord b 0 buf))

/-- `Java_com_jme3_bullet_objects_PhysicsSoftBody_appendTetras__JLjava_nio_IntBuffer_2`
under argument-evaluation order `ord`. -/
def appendTetrasIntOrd (ord : Nat → Equiv.Perm (Fin 4)) (body : Option SoftBody)
    (buf : List Int) : Option JavaException × Option SoftBody :=
  match body with
  | none => (some npe, none)
  | some b => (none, some (appendTetrasLoopOrd ord b 0 buf))

/-- One call into the wrapped engine's soft-body mesh-construction API. -/
inductive EngineCall where
  | appendNode (pos : Vec3) (mass : JFloat)
  | appendLink (i j : Int)
  | appendFace (i j k : Int)
  | appendTetra (i j k l : Int)
  deriving DecidableEq

/-- Effect of one engine call on the modelled body. -/
def applyCall (b : SoftBody) : EngineCall → SoftBody
  | .appendNode v m => b.appendNode v m
  | .appendLink i j => b.appendLink i j
  | .appendFace i j k => b.appendFace i j k
  | .appendTetra i j k l => b.appendTetra i j k l

/-- Effect of a sequence of engine calls, in order. -/
def applyCalls (b : SoftBody) : List EngineCall → SoftBody
  | [] => b
  | c :: cs => applyCalls (applyCall b c) cs

/-- The engine calls issued by the `appendNodes` loop, in order: one
`appendNode(btVector3(x, y, z), 1)` per complete coordinate triple. -/
def appendNodesCalls : List JFloat → List EngineCall
  | x :: y :: z :: rest =>
    .appendNode (Vec3.mk x y z) 1 :: appendNodesCalls rest
  | _ => []

/-- The engine calls issued by `removeAnchor`: none.  The source's loop
manipulates `m_anchors` and `m_nodes` directly (`swap`, `pop_back`, field
assignment) and invokes no `btSoftBody` member that is part of the engine's
soft-body API. -/
def removeAnchorCalls (_b : SoftBody) (_nodeId : Nat) (_rigidId : RigidId) :
    List EngineCall :=
  []

/-- A node as built by the `appendNodes` loop from one coordinate triple:
position from the buffer, mass `1`, not attached. -/
def nodeOfTriple (t : JFloat × JFloat × JFloat) : SBNode :=
  SBNode.mk (Vec3.mk t.1 t.2.1 t.2.2) 1 0

/-- A small concrete body used to exercise the anchor operations: two
attached nodes, both anchored to the rigid body with handle `7`. -/
def sampleAnchoredBody : SoftBody :=
  SoftBody.mk [SBNode.mk (Vec3.mk 0 0 0) 1 1, SBNode.mk (Vec3.mk 1 0 0) 1 1]
    [] [] [] [Anchor.mk 0 7 none true 1, Anchor.mk 1 7 none true 1] [] 1 0 0 0

theorem pairGroups_length {α : Type} : ∀ l : List α, (pairGroups l).length = l.length / 2
  | [] => by simp [pairGroups]
  | [_] => by simp [pairGroups]
  | _ :: _ :: rest => by
    simp only [pairGroups, List.length_cons, pairGroups_length rest]
    omega

theorem tripleGroups_length {α : Type} : ∀ l : List α, (tripleGroups l).length = l.length / 3
  | [] => by simp [tripleGroups]
  | [_] => by simp [tripleGroups]
  | [_, _] => by simp [tripleGroups]
  | _ :: _ :: _ :: rest => by
    simp only [tripleGroups, List.length_cons, tripleGroups_length rest]
    omega

theorem quadGroups_length {α : Type} : ∀ l : List α, (quadGroups l).length = l.length / 4
  | [] => by simp [quadGroups]
  | [_] => by simp [quadGroups]
  | [_, _] => by simp [quadGroups]
  | [_, _, _] => by simp [quadGroups]
  | _ :: _ :: _ :: _ :: rest => by
    simp only [quadGroups, List.length_cons, quadGroups_length rest]
    omega

theorem pairGroups_getElem {α : Type} (d : α) :
    ∀ (l : List α) (k : Nat), k < l.length / 2 →
      (pairGroups l)[k]? = some (l.getD (2 * k) d, l.getD (2 * k + 1) d)
  | [], k, h => by simp at h
  | [_], k, h => by simp only [List.length_cons, List.length_nil] at h; omega
  | a :: b :: rest, 0, _ => by simp [pairGroups]
  | a :: b :: rest, k + 1, h => by
    have hk : k < rest.length / 2 := by simp only [List.length_cons] at h; omega
    have h2 : 2 * (k + 1) = 2 * k + 1 + 1 := by ring
    have h3 : 2 * (k + 1) + 1 = 2 * k + 1 + 1 + 1 := by ring
    simp only [pairGroups, List.getElem?_cons_succ, pairGroups_getElem d rest k hk, h2, h3,
      List.getD_cons_succ]

theorem tripleGroups_getElem {α : Type} (d : α) :
    ∀ (l : List α) (k : Nat), k < l.length / 3 →
      (tripleGroups l)[k]? = some (l.getD (3 * k) d, l.getD (3 * k + 1) d, l.getD (3 * k + 2) d)
  | [], k, h => by simp at h
  | [_], k, h => by simp only [List.length_cons, List.length_nil] at h; omega
  | [_, _], k, h => by simp only [List.length_cons, List.length_nil] at h; omega
  | a :: b :: c :: rest, 0, _ => by simp [tripleGroups]
  | a :: b :: c :: rest, k + 1, h => by
    have hk : k < rest.length / 3 := by simp only [List.length_cons] at h; omega
    have h2 : 3 * (k + 1) = 3 * k + 2 + 1 := by ring
    have h3 : 3 * (k + 1) + 1 = 3 * k + 2 + 1 + 1 := by ring
    have h4 : 3 * (k + 1) + 2 = 3 * k + 2 + 1 + 1 + 1 := by ring
    simp only [tripleGroups, List.getElem?_cons_succ, tripleGroups_getElem d rest k hk, h2, h3, h4,
      List.getD_cons_succ]

theorem quadGroups_getElem {α : Type} (d : α) :
    ∀ (l : List α) (k : Nat), k < l.length / 4 →
      (quadGroups l)[k]? = some (l.getD (4 * k) d, l.getD (4 * k + 1) d,
        l.getD (4 * k + 2) d, l.getD (4 * k + 3) d)
  | [], k, h => by simp at h
  | [_], k, h => by simp only [List.length_cons, List.length_nil] at h; omega
  | [_, _], k, h => by simp only [List.length_cons, List.length_nil] at h; omega
  | [_, _, _], k, h => by simp only [List.length_cons, List.length_nil] at h; omega
  | a :: b :: c :: e :: rest, 0, _ => by simp [quadGroups]
  | a :: b :: c :: e :: rest, k + 1, h => by
    have hk : k < rest.length / 4 := by simp only [List.length_cons] at h; omega
    have h2 : 4 * (k + 1) = 4 * k + 3 + 1 := by ring
    have h3 : 4 * (k + 1) + 1 = 4 * k + 3 + 1 + 1 := by ring
    have h4 : 4 * (k + 1) + 2 = 4 * k + 3 + 1 + 1 + 1 := by ring
    have h5 : 4 * (k + 1) + 3 = 4 * k + 3 + 1 + 1 + 1 + 1 := by ring
    simp only [quadGroups, List.getElem?_cons_succ, quadGroups_getElem d rest k hk, h2, h3, h4, h5,
      List.getD_cons_succ]

theorem readAt2_zero (a b : Int) : readAt2 a b 0 = a := rfl

theorem readAt2_one (a b : Int) : readAt2 a b 1 = b := rfl

theorem readAt3_zero (x y z : Int) : readAt3 x y z 0 = x := rfl

theorem readAt3_one (x y z : Int) : readAt3 x y z 1 = y := rfl

theorem readAt3_two (x y z : Int) : readAt3 x y z 2 = z := rfl

theorem readAt4_zero (x y z w : Int) : readAt4 x y z w 0 = x := rfl

theorem readAt4_one (x y z w : Int) : readAt4 x y z w 1 = y := rfl

theorem readAt4_two (x y z w : Int) : readAt4 x y z w 2 = z := rfl

theorem readAt4_three (x y z w : Int) : readAt4 x y z w 3 = w := rfl

theorem pairGroupsOrd_length (ord : Nat → Equiv.Perm (Fin 2)) :
    ∀ (k : Nat) (l : List Int), (pairGroupsOrd ord k l).length = l.length / 2
  | _, [] => by simp [pairGroupsOrd]
  | _, [_] => by simp [pairGroupsOrd]
  | k, _ :: _ :: rest => by
    simp only [pairGroupsOrd, List.length_cons, pairGroupsOrd_length ord (k + 1) rest]
    omega

theorem tripleGroupsOrd_length (ord : Nat → Equiv.Perm (Fin 3)) :
    ∀ (k : Nat) (l : List Int), (tripleGroupsOrd ord k l).length = l.length / 3
  | _, [] => by simp [tripleGroupsOrd]
  | _, [_] => by simp [tripleGroupsOrd]
  | _, [_, _] => by simp [tripleGroupsOrd]
  | k, _ :: _ :: _ :: rest => by
    simp only [tripleGroupsOrd, List.length_cons, tripleGroupsOrd_length ord (k + 1) rest]
    omega

theorem quadGroupsOrd_length (ord : Nat → Equiv.Perm (Fin 4)) :
    ∀ (k : Nat) (l : List Int), (quadGroupsOrd ord k l).length = l.length / 4
  | _, [] => by simp [quadGroupsOrd]
  | _, [_] => by simp [quadGroupsOrd]
  | _, [_, _] => by simp [quadGroupsOrd]
  | _, [_, _, _] => by simp [quadGroupsOrd]
  | k, _ :: _ :: _ :: _ :: rest => by
    simp only [quadGroupsOrd, List.length_cons, quadGroupsOrd_length ord (k + 1) rest]
    omega

theorem pairGroupsOrd_getElem (ord : Nat → Equiv.Perm (Fin 2)) :
    ∀ (k0 : Nat) (l : List Int) (k : Nat), k < l.length / 2 →
      (pairGroupsOrd ord k0 l)[k]? =
        some (readAt2 (l.getD (2 * k) 0) (l.getD (2 * k + 1) 0) (ord (k0 + k) 0),
          readAt2 (l.getD (2 * k) 0) (l.getD (2 * k + 1) 0) (ord (k0 + k) 1))
  | _, [], k, h => by simp at h
  | _, [_], k, h => by simp only [List.length_cons, List.length_nil] at h; omega
  | k0, a :: b :: rest, 0, _ => by simp [pairGroupsOrd]
  | k0, a :: b :: rest, k + 1, h => by
    have hk : k < rest.length / 2 := by simp only [List.length_cons] at h; omega
    have h2 : 2 * (k + 1) = 2 * k + 1 + 1 := by ring
    have h3 : 2 * (k + 1) + 1 = 2 * k + 1 + 1 + 1 := by ring
    have h4 : k0 + (k + 1) = (k0 + 1) + k := by omega
    simp only [pairGroupsOrd, List.getElem?_cons_succ,
      pairGroupsOrd_getElem ord (k0 + 1) rest k hk, h2, h3, h4, List.getD_cons_succ]

theorem tripleGroupsOrd_getElem (ord : Nat → Equiv.Perm (Fin 3)) :
    ∀ (k0 : Nat) (l : List Int) (k : Nat), k < l.length / 3 →
      (tripleGroupsOrd ord k0 l)[k]? =
        some (readAt3 (l.getD (3 * k) 0) (l.getD (3 * k + 1) 0) (l.getD (3 * k + 2) 0)
            (ord (k0 + k) 0),
          readAt3 (l.getD (3 * k) 0) (l.getD (3 * k + 1) 0) (l.getD (3 * k + 2) 0)
            (ord (k0 + k) 1),
          readAt3 (l.getD (3 * k) 0) (l.getD (3 * k + 1) 0) (l.getD (3 * k + 2) 0)
            (ord (k0 + k) 2))
  | _, [], k, h => by simp at h
  | _, [_], k, h => by simp only [List.length_cons, List.length_nil] at h; omega
  | _, [_, _], k, h => by simp only [List.length_cons, List.length_nil] at h; omega
  | k0, x :: y :: z :: rest, 0, _ => by simp [tripleGroupsOrd]
  | k0, x :: y :: z :: rest, k + 1, h => by
    have hk : k < rest.length / 3 := by simp only [List.length_cons] at h; omega
    have h2 : 3 * (k + 1) = 3 * k + 2 + 1 := by ring
    have h3 : 3 * (k + 1) + 1 = 3 * k + 2 + 1 + 1 := by ring
    have h4 : 3 * (k + 1) + 2 = 3 * k + 2 + 1 + 1 + 1 := by ring
    have h5 : k0 + (k + 1) = (k0 + 1) + k := by omega
    simp only [tripleGroupsOrd, List.getElem?_cons_succ,
      tripleGroupsOrd_getElem ord (k0 + 1) rest k hk, h2, h3, h4, h5, List.getD_cons_succ]

theorem quadGroupsOrd_getElem (ord : Nat → Equiv.Perm (Fin 4)) :
    ∀ (k0 : Nat) (l : List Int) (k : Nat), k < l.length / 4 →
      (quadGroupsOrd ord k0 l)[k]? =
        some (readAt4 (l.getD (4 * k) 0) (l.getD (4 * k + 1) 0) (l.getD (4 * k + 2) 0)
            (l.getD (4 * k + 3) 0) (ord (k0 + k) 0),
          readAt4 (l.getD (4 * k) 0) (l.getD (4 * k + 1) 0) (l.getD (4 * k + 2) 0)
            (l.getD (4 * k + 3) 0) (ord (k0 + k) 1),
          readAt4 (l.getD (4 * k) 0) (l.getD (4 * k + 1) 0) (l.getD (4 * k + 2) 0)
            (l.getD (4 * k + 3) 0) (ord (k0 + k) 2),
          readAt4 (l.getD (4 * k) 0) (l.getD (4 * k + 1) 0) (l.getD (4 * k + 2) 0)
            (l.getD (4 * k + 3) 0) (ord (k0 + k) 3))
  | _, [], k, h => by simp at h
  | _, [_], k, h => by simp only [List.length_cons, List.length_nil] at h; omega
  | _, [_, _], k, h => by simp only [List.length_cons, List.length_nil] at h; omega
  | _, [_, _, _], k, h => by simp only [List.length_cons, List.length_nil] at h; omega
  | k0, x :: y :: z :: w :: rest, 0, _ => by simp [quadGroupsOrd]
  | k0, x :: y :: z :: w :: rest, k + 1, h => by
    have hk : k < rest.length / 4 := by simp only [List.length_cons] at h; omega
    have h2 : 4 * (k + 1) = 4 * k + 3 + 1 := by ring
    have h3 : 4 * (k + 1) + 1 = 4 * k + 3 + 1 + 1 := by ring
    have h4 : 4 * (k + 1) + 2 = 4 * k + 3 + 1 + 1 + 1 := by ring
    have h5 : 4 * (k + 1) + 3 = 4 * k + 3 + 1 + 1 + 1 + 1 := by ring
    have h6 : k0 + (k + 1) = (k0 + 1) + k := by omega
    simp only [quadGroupsOrd, List.getElem?_cons_succ,
      quadGroupsOrd_getElem ord (k0 + 1) rest k hk, h2, h3, h4, h5, h6, List.getD_cons_succ]

theorem pairGroupsOrd_one : ∀ (k : Nat) (l : List Int),
    pairGroupsOrd (fun _ => 1) k l = pairGroups l
  | _, [] => by simp [pairGroupsOrd, pairGroups]
  | _, [_] => by simp [pairGroupsOrd, pairGroups]
  | k, a :: b :: rest => by
    simp only [pairGroupsOrd, pairGroups, pairGroupsOrd_one (k + 1) rest,
      Equiv.Perm.coe_one, id_eq, readAt2_zero, readAt2_one]

theorem tripleGroupsOrd_one : ∀ (k : Nat) (l : List Int),
    tripleGroupsOrd (fun _ => 1) k l = tripleGroups l
  | _, [] => by simp [tripleGroupsOrd, tripleGroups]
  | _, [_] => by simp [tripleGroupsOrd, tripleGroups]
  | _, [_, _] => by simp [tripleGroupsOrd, tripleGroups]
  | k, x :: y :: z :: rest => by
    simp only [tripleGroupsOrd, tripleGroups, tripleGroupsOrd_one (k + 1) rest,
      Equiv.Perm.coe_one, id_eq, readAt3_zero, readAt3_one, readAt3_two]

theorem quadGroupsOrd_one : ∀ (k : Nat) (l : List Int),
    quadGroupsOrd (fun _ => 1) k l = quadGroups l
  | _, [] => by simp [quadGroupsOrd, quadGroups]
  | _, [_] => by simp [quadGroupsOrd, quadGroups]
  | _, [_, _] => by simp [quadGroupsOrd, quadGroups]
  | _, [_, _, _] => by simp [quadGroupsOrd, quadGroups]
  | k, x :: y :: z :: w :: rest => by
    simp only [quadGroupsOrd, quadGroups, quadGroupsOrd_one (k + 1) rest,
      Equiv.Perm.coe_one, id_eq, readAt4_zero, readAt4_one, readAt4_two, readAt4_three]

theorem appendLinksLoopOrd_eq (ord : Nat → Equiv.Perm (Fin 2)) :
    ∀ (b : SoftBody) (k : Nat) (buf : List Int),
      appendLinksLoopOrd ord b k buf = { b with links := b.links ++ pairGroupsOrd ord k buf }
  | b, _, [] => by simp [appendLinksLoopOrd, pairGroupsOrd]
  | b, _, [_] => by simp [appendLinksLoopOrd, pairGroupsOrd]
  | b, k, i :: j :: rest => by
    rw [appendLinksLoopOrd, appendLinksLoopOrd_eq ord _ (k + 1) rest]
    simp [SoftBody.appendLink, pairGroupsOrd]

theorem appendFacesLoopOrd_eq (ord : Nat → Equiv.Perm (Fin 3)) :
    ∀ (b : SoftBody) (k : Nat) (buf : List Int),
      appendFacesLoopOrd ord b k buf = { b with faces := b.faces ++ tripleGroupsOrd ord k buf }
  | b, _, [] => by simp [appendFacesLoopOrd, tripleGroupsOrd]
  | b, _, [_] => by simp [appendFacesLoopOrd, tripleGroupsOrd]
  | b, _, [_, _] => by simp [appendFacesLoopOrd, tripleGroupsOrd]
  | b, k, x :: y :: z :: rest => by
    rw [appendFacesLoopOrd, appendFacesLoopOrd_eq ord _ (k + 1) rest]
    simp [SoftBody.appendFace, tripleGroupsOrd]

theorem appendTetrasLoopOrd_eq (ord : Nat → Equiv.Perm (Fin 4)) :
    ∀ (b : SoftBody) (k : Nat) (buf : List Int),
      appendTetrasLoopOrd ord b k buf = { b with tetras := b.tetras ++ quadGroupsOrd ord k buf }
  | b, _, [] => by simp [appendTetrasLoopOrd, quadGroupsOrd]
  | b, _, [_] => by simp [appendTetrasLoopOrd, quadGroupsOrd]
  | b, _, [_, _] => by simp [appendTetrasLoopOrd, quadGroupsOrd]
  | b, _, [_, _, _] => by simp [appendTetrasLoopOrd, quadGroupsOrd]
  | b, k, x :: y :: z :: w :: rest => by
    rw [appendTetrasLoopOrd, appendTetrasLoopOrd_eq ord _ (k + 1) rest]
    simp [SoftBody.appendTetra, quadGroupsOrd]

theorem appendNodesLoop_eq : ∀ (b : SoftBody) (buf : List JFloat),
    appendNodesLoop b buf = { b with nodes := b.nodes ++ (tripleGroups buf).map nodeOfTriple }
  | b, [] => by simp [appendNodesLoop, tripleGroups]
  | b, [_] => by simp [appendNodesLoop, tripleGroups]
  | b, [_, _] => by simp [appendNodesLoop, tripleGroups]
  | b, x :: y :: z :: rest => by
    rw [appendNodesLoop, appendNodesLoop_eq _ rest]
    simp [SoftBody.appendNode, tripleGroups, nodeOfTriple]

theorem appendLinksLoop_eq : ∀ (b : SoftBody) (buf : List Int),
    appendLinksLoop b buf = { b with links := b.links ++ pairGroups buf }
  | b, [] => by simp [appendLinksLoop, pairGroups]
  | b, [_] => by simp [appendLinksLoop, pairGroups]
  | b, i :: j :: rest => by
    rw [appendLinksLoop, appendLinksLoop_eq _ rest]
    simp [SoftBody.appendLink, pairGroups]

theorem appendFacesLoop_eq : ∀ (b : SoftBody) (buf : List Int),
    appendFacesLoop b buf = { b with faces := b.faces ++ tripleGroups buf }
  | b, [] => by simp [appendFacesLoop, tripleGroups]
  | b, [_] => by simp [appendFacesLoop, tripleGroups]
  | b, [_, _] => by simp [appendFacesLoop, tripleGroups]
  | b, i :: j :: k :: rest => by
    rw [appendFacesLoop, appendFacesLoop_eq _ rest]
    simp [SoftBody.appendFace, tripleGroups]

theorem appendTetrasLoop_eq : ∀ (b : SoftBody) (buf : List Int),
    appendTetrasLoop b buf = { b with tetras := b.tetras ++ quadGroups buf }
  | b, [] => by simp [appendTetrasLoop, quadGroups]
  | b, [_] => by simp [appendTetrasLoop, quadGroups]
  | b, [_, _] => by simp [appendTetrasLoop, quadGroups]
  | b, [_, _, _] => by simp [appendTetrasLoop, quadGroups]
  | b, i :: j :: k :: l :: rest => by
    rw [appendTetrasLoop, appendTetrasLoop_eq _ rest]
    simp [SoftBody.appendTetra, quadGroups]

theorem appendNodesCalls_eq : ∀ buf : List JFloat,
    appendNodesCalls buf = (tripleGroups buf).map (fun t => .appendNode (Vec3.mk t.1 t.2.1 t.2.2) 1)
  | [] => by simp [appendNodesCalls, tripleGroups]
  | [_] => by simp [appendNodesCalls, tripleGroups]
  | [_, _] => by simp [appendNodesCalls, tripleGroups]
  | x :: y :: z :: rest => by
    simp [appendNodesCalls, tripleGroups, appendNodesCalls_eq rest]

theorem appendNodesLoop_applyCalls : ∀ (buf : List JFloat) (b : SoftBody),
    appendNodesLoop b buf = applyCalls b (appendNodesCalls buf)
  | [], b => by simp [appendNodesLoop, appendNodesCalls, applyCalls]
  | [_], b => by simp [appendNodesLoop, appendNodesCalls, applyCalls]
  | [_, _], b => by simp [appendNodesLoop, appendNodesCalls, applyCalls]
  | x :: y :: z :: rest, b => by
    rw [appendNodesLoop, appendNodesCalls, applyCalls, applyCall]
    exact appendNodesLoop_applyCalls rest _

theorem nodeCoords_of_tripleGroups : ∀ l : List JFloat, l.length % 3 = 0 →
    nodeCoords ((tripleGroups l).map nodeOfTriple) = l
  | [], _ => rfl
  | [_], h => by simp only [List.length_cons, List.length_nil] at h; omega
  | [_, _], h => by simp only [List.length_cons, List.length_nil] at h; omega
  | x :: y :: z :: rest, h => by
    have hr : rest.length % 3 = 0 := by
      simp only [List.length_cons] at h; omega
    simp only [tripleGroups, List.map_cons, nodeOfTriple, nodeCoords,
      nodeCoords_of_tripleGroups rest hr]

theorem updateNodeAt_length : ∀ (l : List SBNode) (i : Nat) (f : SBNode → SBNode),
    (updateNodeAt l i f).length = l.length
  | [], _, _ => rfl
  | _ :: rest, 0, f => by simp [updateNodeAt]
  | _ :: rest, i + 1, f => by
    simp [updateNodeAt, updateNodeAt_length rest i f]

theorem updateNodeAt_getElem : ∀ (l : List SBNode) (i j : Nat) (f : SBNode → SBNode),
    (updateNodeAt l i f)[j]? = if j = i then (l[j]?).map f else l[j]?
  | [], i, j, f => by simp [updateNodeAt]
  | nd :: rest, 0, 0, f => by simp [updateNodeAt]
  | nd :: rest, 0, j + 1, f => by simp [updateNodeAt]
  | nd :: rest, i + 1, 0, f => by simp [updateNodeAt]
  | nd :: rest, i + 1, j + 1, f => by
    simp only [updateNodeAt, List.getElem?_cons_succ, updateNodeAt_getElem rest i j f,
      Nat.add_right_cancel_iff]

theorem setMassAt_nodes_length (b : SoftBody) (i : Nat) (m : JFloat) :
    (b.setMassAt i m).nodes.length = b.nodes.length :=
  updateNodeAt_length b.nodes i _

theorem getMassAt_setMassAt_ne (b : SoftBody) (i j : Nat) (m : JFloat) (h : j ≠ i) :
    (b.setMassAt i m).getMassAt j = b.getMassAt j := by
  simp only [SoftBody.getMassAt, SoftBody.setMassAt, updateNodeAt_getElem, if_neg h]

theorem getMassAt_setMassAt_eq (b : SoftBody) (i : Nat) (m : JFloat)
    (h : i < b.nodes.length) : (b.setMassAt i m).getMassAt i = m := by
  simp only [SoftBody.getMassAt, SoftBody.setMassAt, updateNodeAt_getElem, if_pos rfl]
  rw [List.getElem?_eq_getElem h]
  simp

theorem setMassesLoop_nodes_length : ∀ (buf : List JFloat) (b : SoftBody) (i : Nat),
    (setMassesLoop b i buf).nodes.length = b.nodes.length
  | [], _, _ => rfl
  | m :: rest, b, i => by
    rw [setMassesLoop, setMassesLoop_nodes_length rest _ (i + 1), setMassAt_nodes_length]

theorem setMassesLoop_getMassAt_lower : ∀ (buf : List JFloat) (b : SoftBody) (i j : Nat),
    j < i → (setMassesLoop b i buf).getMassAt j = b.getMassAt j
  | [], _, _, _, _ => rfl
  | m :: rest, b, i, j, h => by
    rw [setMassesLoop, setMassesLoop_getMassAt_lower rest _ (i + 1) j (by omega),
      getMassAt_setMassAt_ne _ _ _ _ (by omega)]

theorem setMassesLoop_getMassAt : ∀ (buf : List JFloat) (b : SoftBody) (i j : Nat),
    j < buf.length → i + j < b.nodes.length →
    (setMassesLoop b i buf).getMassAt (i + j) = buf.getD j 0
  | [], _, _, j, hj, _ => by simp at hj
  | m :: rest, b, i, 0, _, hlen => by
    simp only [Nat.add_zero] at hlen ⊢
    rw [setMassesLoop, setMassesLoop_getMassAt_lower rest _ (i + 1) i (Nat.lt_succ_self i),
      getMassAt_setMassAt_eq _ _ _ hlen]
    rfl
  | m :: rest, b, i, jj + 1, hj, hlen => by
    rw [setMassesLoop]
    have harith : i + (jj + 1) = (i + 1) + jj := by omega
    rw [harith, setMassesLoop_getMassAt rest (b.setMassAt i m) (i + 1) jj
      (by simpa using hj) (by rw [setMassAt_nodes_length]; omega)]
    rfl

theorem getMassesLoop_getElem : ∀ (tpl : List JFloat) (b : SoftBody) (i j : Nat),
    j < tpl.length → (getMassesLoop b i tpl)[j]? = some (b.getMassAt (i + j))
  | [], _, _, j, hj => by simp at hj
  | _ :: rest, b, i, 0, _ => by simp [getMassesLoop]
  | _ :: rest, b, i, j + 1, hj => by
    have harith : i + (j + 1) = (i + 1) + j := by omega
    simp only [getMassesLoop, List.getElem?_cons_succ, harith,
      getMassesLoop_getElem rest b (i + 1) j (by simpa using hj)]

theorem getMasses_after_setMasses : ∀ (tpl buf : List JFloat) (b : SoftBody) (i : Nat),
    tpl.length = buf.length → i + buf.length ≤ b.nodes.length →
    getMassesLoop (setMassesLoop b i buf) i tpl = buf
  | [], [], _, _, _, _ => rfl
  | [], m :: rest, _, _, hlen, _ => by simp at hlen
  | t :: tplrest, [], _, _, hlen, _ => by simp at hlen
  | t :: tplrest, m :: rest, b, i, hlen, hrange => by
    rw [setMassesLoop, getMassesLoop]
    have hlen2 : tplrest.length = rest.length := by simpa using hlen
    have hrange2 : (i + 1) + rest.length ≤ (b.setMassAt i m).nodes.length := by
      rw [setMassAt_nodes_length]
      simp only [List.length_cons] at hrange
      omega
    rw [getMasses_after_setMasses tplrest rest (b.setMassAt i m) (i + 1) hlen2 hrange2,
      setMassesLoop_getMassAt_lower rest _ (i + 1) i (Nat.lt_succ_self i),
      getMassAt_setMassAt_eq _ _ _ (by simp only [List.length_cons] at hrange; omega)]

theorem findMatchIdx_none_of_all (nid : Nat) (rid : RigidId) :
    ∀ l : List Anchor, (∀ a ∈ l, anchorMatches a nid rid = false) →
      findMatchIdx nid rid l = none
  | [], _ => rfl
  | a :: rest, h => by
    have ha := h a (List.mem_cons_self a rest)
    simp only [findMatchIdx, ha, Bool.false_eq_true, if_false,
      findMatchIdx_none_of_all nid rid rest (fun a2 ha2 => h a2 (List.mem_cons_of_mem _ ha2)),
      Option.map_none']

theorem findMatchIdx_some (nid : Nat) (rid : RigidId) :
    ∀ (l : List Anchor) (i : Nat), findMatchIdx nid rid l = some i →
      i < l.length ∧ (∃ a, l[i]? = some a ∧ anchorMatches a nid rid = true) ∧
      (∀ j, j < i → ∀ a, l[j]? = some a → anchorMatches a nid rid = false)
  | [], i, h => by simp [findMatchIdx] at h
  | a :: rest, i, h => by
    cases hm : anchorMatches a nid rid with
    | true =>
      simp only [findMatchIdx, hm, if_true] at h
      obtain rfl : i = 0 := by simpa using h.symm
      refine ⟨by simp, ⟨a, by simp, hm⟩, ?_⟩
      intro j hj
      omega
    | false =>
      simp only [findMatchIdx, hm, Bool.false_eq_true, if_false] at h
      cases hr : findMatchIdx nid rid rest with
      | none => rw [hr] at h; simp at h
      | some i0 =>
        rw [hr] at h
        simp only [Option.map_some'] at h
        obtain rfl : i0 + 1 = i := by simpa using h
        obtain ⟨h1, ⟨a0, ha0, hm0⟩, h3⟩ := findMatchIdx_some nid rid rest i0 hr
        refine ⟨by simp; omega, ⟨a0, by simpa using ha0, hm0⟩, ?_⟩
        intro j hj a2 ha2
        match j with
        | 0 =>
          obtain rfl : a = a2 := by simpa using ha2
          simpa using hm
        | jj + 1 =>
          exact h3 jj (by omega) a2 (by simpa using ha2)

theorem swapPopAt_length (l : List Anchor) (i : Nat) (h : i < l.length) :
    (swapPopAt l i).length + 1 = l.length := by
  have hne : l ≠ [] := by
    intro h0
    subst h0
    simp at h
  obtain ⟨last, hl⟩ : ∃ a, l.getLast? = some a := by
    cases hg : l.getLast? with
    | none => exact absurd (List.getLast?_eq_none_iff.mp hg) hne
    | some a => exact ⟨a, rfl⟩
  simp only [swapPopAt, hl, List.length_dropLast, List.length_set]
  have hpos : 0 < l.length := by omega
  omega

/-- C1: every exported operation that takes a native soft-body handle, when
that handle is null, raises a `java.lang.NullPointerException` with message
"The native object does not exist." and returns immediately with the body
unmodified, returning `0` for value-returning operations and `false` for
`isInWorld`; the operations taking a second native handle
(`setSoftBodyWorldInfo`, `appendAnchor`, `removeAnchor`,
`generateBendingConstraints`) apply the same check-and-throw to that second
handle before performing any modification. -/
theorem nullHandleChecks :
    ∀ (b : SoftBody) (fbuf : List JFloat) (ibuf : List Int) (nid : Nat)
      (m infl : JFloat) (d : Int) (rid : RigidId)
      (piv : Option Vector3f) (flag : Bool),
      appendNodes none fbuf = (some npe, none) ∧
      appendLinksByte none ibuf = (some npe, none) ∧
      appendLinksShort none ibuf = (some npe, none) ∧
      appendLinksInt none ibuf = (some npe, none) ∧
      appendFacesByte none ibuf = (some npe, none) ∧
      appendFacesShort none ibuf = (some npe, none) ∧
      appendFacesInt none ibuf = (some npe, none) ∧
      appendTetrasByte none ibuf = (some npe, none) ∧
      appendTetrasShort none ibuf = (some npe, none) ∧
      appendTetrasInt none ibuf = (some npe, none) ∧
      getNbNodes none = (some npe, 0) ∧
      getNbLinks none = (some npe, 0) ∧
      getNbFaces none = (some npe, 0) ∧
      getNbTetras none = (some npe, 0) ∧
      getNodesPositions none fbuf = (some npe, fbuf) ∧
      setMass none nid m = (some npe, none) ∧
      getMass none nid = (some npe, 0) ∧
      setMasses none fbuf = (some npe, none) ∧
      getMasses none fbuf = (some npe, fbuf) ∧
      removeAnchor none nid rid = (some npe, none) ∧
      isInWorld none = (some npe, false) ∧
      setSoftBodyWorldInfo none rid = (some npe, none) ∧
      appendAnchor none nid rid piv flag infl = (some npe, none) ∧
      generateBendingConstraints none d rid = (some npe, none) ∧
      setSoftBodyWorldInfo (some b) 0 = (some npe, some b) ∧
      appendAnchor (some b) nid 0 piv flag infl = (some npe, some b) ∧
      removeAnchor (some b) nid 0 = (some npe, some b) ∧
      generateBendingConstraints (some b) d 0 = (some npe, some b) := by
  intro b fbuf ibuf nid m infl d rid piv flag
  exact ⟨rfl, rfl, rfl, rfl, rfl, rfl, rfl, rfl, rfl, rfl, rfl, rfl, rfl, rfl,
    rfl, rfl, rfl, rfl, rfl, rfl, rfl, rfl, rfl, rfl, rfl, rfl, rfl, rfl⟩

/-- C2 (counterexample): the claim that every operation performs its entire
effect through a single immediate engine call is false: on a six-float buffer
`appendNodes` changes the body through two engine `appendNode` calls, not
one. -/
theorem singleCallDelegationCounterexample :
    (appendNodesCalls [1, 2, 3, 4, 5, 6]).length = 2 ∧
    (appendNodes (some (createEmptySoftBody 0 0)) [1, 2, 3, 4, 5, 6]).2 ≠
      some (createEmptySoftBody 0 0) ∧
    (appendNodesCalls [1, 2, 3, 4, 5, 6]).length ≠ 1 := by
  refine ⟨rfl, by decide, by decide⟩

/-- C2 (amended): each buffer-marshalling operation performs its effect on
the body through one engine call per complete marshalled element group
(`appendNodes`: one `appendNode` per coordinate triple, so zero or several
calls per invocation rather than exactly one), while `removeAnchor` makes no
engine soft-body call at all, implementing its removal directly over the
anchor array in this file. -/
theorem marshallingDelegationStructure :
    ∀ (buf : List JFloat) (b : SoftBody) (nid : Nat) (rid : RigidId),
      appendNodes (some b) buf = (none, some (applyCalls b (appendNodesCalls buf))) ∧
      (appendNodesCalls buf).length = buf.length / 3 ∧
      removeAnchorCalls b nid rid = [] := by
  intro buf b nid rid
  refine ⟨?_, ?_, rfl⟩
  · simp [appendNodes, appendNodesLoop_applyCalls]
  · rw [appendNodesCalls_eq, List.length_map, tripleGroups_length]

/-- C3: on a non-null body, `appendNodes` with a buffer of capacity `C`
appends exactly `C / 3` nodes, the `k`-th appended node having position
`(buf[3k], buf[3k+1], buf[3k+2])` and mass `1`; trailing floats beyond the
last complete triple are ignored. -/
theorem appendNodesMarshalling :
    ∀ (b : SoftBody) (buf : List JFloat),
      appendNodes (some b) buf =
        (none, some { b with nodes := b.nodes ++ (tripleGroups buf).map nodeOfTriple }) ∧
      ((tripleGroups buf).map nodeOfTriple).length = buf.length / 3 ∧
      ∀ k, k < buf.length / 3 →
        ((tripleGroups buf).map nodeOfTriple)[k]? =
          some (SBNode.mk (Vec3.mk (buf.getD (3 * k) 0) (buf.getD (3 * k + 1) 0)
            (buf.getD (3 * k + 2) 0)) 1 0) := by
  intro b buf
  refine ⟨?_, ?_, ?_⟩
  · simp [appendNodes, appendNodesLoop_eq]
  · rw [List.length_map, tripleGroups_length]
  · intro k hk
    rw [List.getElem?_map, tripleGroups_getElem (0 : JFloat) buf k hk]
    rfl

/-- C3 witness: on a seven-float buffer two nodes are appended, and the
second one carries the fourth, fifth and sixth floats with mass `1`. -/
theorem appendNodesMarshallingWitness :
    appendNodes (some (createEmptySoftBody 0 0)) [1, 2, 3, 4, 5, 6, 7] =
      (none, some { createEmptySoftBody 0 0 with
        nodes := (createEmptySoftBody 0 0).nodes ++
          (tripleGroups [(1 : JFloat), 2, 3, 4, 5, 6, 7]).map nodeOfTriple }) ∧
    ((tripleGroups [(1 : JFloat), 2, 3, 4, 5, 6, 7]).map nodeOfTriple).length = 2 ∧
    ((tripleGroups [(1 : JFloat), 2, 3, 4, 5, 6, 7]).map nodeOfTriple)[1]? =
      some (SBNode.mk (Vec3.mk 4 5 6) 1 0) := by
  have h := appendNodesMarshalling (createEmptySoftBody 0 0) [1, 2, 3, 4, 5, 6, 7]
  exact ⟨h.1, (h.2.1).trans (by decide), (h.2.2 1 (by decide)).trans (by decide)⟩

/-- C4 (counterexample): the claim's within-group order is not guaranteed by
the source, whose `appendLink(link[i++], link[i++])` leaves the order of its
argument reads unsequenced: under right-to-left argument evaluation (the
reversal permutation) the first link appended from the buffer `[1, 2]` is
`(2, 1)`, not the claimed `(buf[0], buf[1]) = (1, 2)`. -/
theorem appendIndexGroupsOrderCounterexample :
    appendLinksIntOrd (fun _ => Equiv.swap 0 1) (some (createEmptySoftBody 0 0)) [1, 2] =
      (none, some { createEmptySoftBody 0 0 with links := [((2 : Int), 1)] }) ∧
    ((2 : Int), (1 : Int)) ≠ ((1 : Int), (2 : Int)) := by
  exact ⟨by decide, by decide⟩

/-- C4 (amended): on a non-null body, each `appendLinks` variant appends
exactly `C / 2` links, each `appendFaces` variant `C / 3` faces and each
`appendTetras` variant `C / 4` tetrahedra, the `k`-th group built from the
consecutive buffer elements `buf[ck .. ck+c-1]` arranged by the
compiler-chosen argument-evaluation order of that call (the source leaves the
order of the `i++` argument reads unsequenced, so the order within each group
is not guaranteed; under left-to-right evaluation the `k`-th group is exactly
`(buf[ck], ..., buf[ck+c-1])`); an incomplete trailing group is ignored. -/
theorem appendIndexGroupsMarshallingOrd :
    ∀ (o2 : Nat → Equiv.Perm (Fin 2)) (o3 : Nat → Equiv.Perm (Fin 3))
      (o4 : Nat → Equiv.Perm (Fin 4)) (b : SoftBody) (buf : List Int),
      appendLinksByteOrd o2 (some b) buf =
        (none, some { b with links := b.links ++ pairGroupsOrd o2 0 buf }) ∧
      appendLinksShortOrd o2 (some b) buf =
        (none, some { b with links := b.links ++ pairGroupsOrd o2 0 buf }) ∧
      appendLinksIntOrd o2 (some b) buf =
        (none, some { b with links := b.links ++ pairGroupsOrd o2 0 buf }) ∧
      appendFacesByteOrd o3 (some b) buf =
        (none, some { b with faces := b.faces ++ tripleGroupsOrd o3 0 buf }) ∧
      appendFacesShortOrd o3 (some b) buf =
        (none, some { b with faces := b.faces ++ tripleGroupsOrd o3 0 buf }) ∧
      appendFacesIntOrd o3 (some b) buf =
        (none, some { b with faces := b.faces ++ tripleGroupsOrd o3 0 buf }) ∧
      appendTetrasByteOrd o4 (some b) buf =
        (none, some { b with tetras := b.tetras ++ quadGroupsOrd o4 0 buf }) ∧
      appendTetrasShortOrd o4 (some b) buf =
        (none, some { b with tetras := b.tetras ++ quadGroupsOrd o4 0 buf }) ∧
      appendTetrasIntOrd o4 (some b) buf =
        (none, some { b with tetras := b.tetras ++ quadGroupsOrd o4 0 buf }) ∧
      (pairGroupsOrd o2 0 buf).length = buf.length / 2 ∧
      (tripleGroupsOrd o3 0 buf).length = buf.length / 3 ∧
      (quadGroupsOrd o4 0 buf).length = buf.length / 4 ∧
      (∀ k, k < buf.length / 2 →
        (pairGroupsOrd o2 0 buf)[k]? =
          some (readAt2 (buf.getD (2 * k) 0) (buf.getD (2 * k + 1) 0) (o2 k 0),
            readAt2 (buf.getD (2 * k) 0) (buf.getD (2 * k + 1) 0) (o2 k 1))) ∧
      (∀ k, k < buf.length / 3 →
        (tripleGroupsOrd o3 0 buf)[k]? =
          some (readAt3 (buf.getD (3 * k) 0) (buf.getD (3 * k + 1) 0)
              (buf.getD (3 * k + 2) 0) (o3 k 0),
            readAt3 (buf.getD (3 * k) 0) (buf.getD (3 * k + 1) 0)
              (buf.getD (3 * k + 2) 0) (o3 k 1),
            readAt3 (buf.getD (3 * k) 0) (buf.getD (3 * k + 1) 0)
              (buf.getD (3 * k + 2) 0) (o3 k 2))) ∧
      (∀ k, k < buf.length / 4 →
        (quadGroupsOrd o4 0 buf)[k]? =
          some (readAt4 (buf.getD (4 * k) 0) (buf.getD (4 * k + 1) 0)
              (buf.getD (4 * k + 2) 0) (buf.getD (4 * k + 3) 0) (o4 k 0),
            readAt4 (buf.getD (4 * k) 0) (buf.getD (4 * k + 1) 0)
              (buf.getD (4 * k + 2) 0) (buf.getD (4 * k + 3) 0) (o4 k 1),
            readAt4 (buf.getD (4 * k) 0) (buf.getD (4 * k + 1) 0)
              (buf.getD (4 * k + 2) 0) (buf.getD (4 * k + 3) 0) (o4 k 2),
            readAt4 (buf.getD (4 * k) 0) (buf.getD (4 * k + 1) 0)
              (buf.getD (4 * k + 2) 0) (buf.getD (4 * k + 3) 0) (o4 k 3))) ∧
      pairGroupsOrd (fun _ => 1) 0 buf = pairGroups buf ∧
      tripleGroupsOrd (fun _ => 1) 0 buf = tripleGroups buf ∧
      quadGroupsOrd (fun _ => 1) 0 buf = quadGroups buf := by
  intro o2 o3 o4 b buf
  refine ⟨?_, ?_, ?_, ?_, ?_, ?_, ?_, ?_, ?_, pairGroupsOrd_length o2 0 buf,
    tripleGroupsOrd_length o3 0 buf, quadGroupsOrd_length o4 0 buf,
    fun k hk => by simpa using pairGroupsOrd_getElem o2 0 buf k hk,
    fun k hk => by simpa using tripleGroupsOrd_getElem o3 0 buf k hk,
    fun k hk => by simpa using quadGroupsOrd_getElem o4 0 buf k hk,
    pairGroupsOrd_one 0 buf, tripleGroupsOrd_one 0 buf, quadGroupsOrd_one 0 buf⟩
  · simp [appendLinksByteOrd, appendLinksLoopOrd_eq]
  · simp [appendLinksShortOrd, appendLinksLoopOrd_eq]
  · simp [appendLinksIntOrd, appendLinksLoopOrd_eq]
  · simp [appendFacesByteOrd, appendFacesLoopOrd_eq]
  · simp [appendFacesShortOrd, appendFacesLoopOrd_eq]
  · simp [appendFacesIntOrd, appendFacesLoopOrd_eq]
  · simp [appendTetrasByteOrd, appendTetrasLoopOrd_eq]
  · simp [appendTetrasShortOrd, appendTetrasLoopOrd_eq]
  · simp [appendTetrasIntOrd, appendTetrasLoopOrd_eq]

/-- C4 witness: under right-to-left evaluation (reversal permutations) the
first pair, triple and quadruple of the buffer `[10, 11, 12, 13]` come out
reversed, each still built from the consecutive buffer elements. -/
theorem appendIndexGroupsMarshallingOrdWitness :
    (pairGroupsOrd (fun _ => Equiv.swap 0 1) 0 [(10 : Int), 11, 12, 13])[0]? =
      some (11, 10) ∧
    (tripleGroupsOrd (fun _ => Equiv.swap 0 2) 0 [(10 : Int), 11, 12, 13])[0]? =
      some (12, 11, 10) ∧
    (quadGroupsOrd (fun _ => Equiv.swap 0 3 * Equiv.swap 1 2) 0
        [(10 : Int), 11, 12, 13])[0]? = some (13, 12, 11, 10) := by
  have h := appendIndexGroupsMarshallingOrd (fun _ => Equiv.swap 0 1)
    (fun _ => Equiv.swap 0 2) (fun _ => Equiv.swap 0 3 * Equiv.swap 1 2)
    (createEmptySoftBody 0 0) [10, 11, 12, 13]
  refine ⟨(h.2.2.2.2.2.2.2.2.2.2.2.2.1 0 (by decide)).trans (by decide),
    (h.2.2.2.2.2.2.2.2.2.2.2.2.2.1 0 (by decide)).trans (by decide),
    (h.2.2.2.2.2.2.2.2.2.2.2.2.2.2.1 0 (by decide)).trans (by decide)⟩

/-- C5: starting from a freshly created empty soft body, `appendNodes` with
exactly `3 * n` floats followed by `getNodesPositions` into a buffer of
capacity at least `3 * n` writes back the same `3 * n` coordinates in the
same order, leaving the rest of the output buffer unchanged. -/
theorem nodesPositionsRoundTrip :
    ∀ (m0 : JFloat) (up0 n : Nat) (coords out : List JFloat),
      coords.length = 3 * n → 3 * n ≤ out.length →
      getNodesPositions ((appendNodes (some (createEmptySoftBody m0 up0)) coords).2) out =
        (none, coords ++ out.drop (3 * n)) := by
  intro m0 up0 n coords out hc hcap
  have hmod : coords.length % 3 = 0 := by omega
  show getNodesPositions (some (appendNodesLoop (createEmptySoftBody m0 up0) coords)) out =
    (none, coords ++ out.drop (3 * n))
  rw [appendNodesLoop_eq]
  show (none, nodeCoords ((createEmptySoftBody m0 up0).nodes ++
      (tripleGroups coords).map nodeOfTriple) ++
    out.drop (nodeCoords ((createEmptySoftBody m0 up0).nodes ++
      (tripleGroups coords).map nodeOfTriple)).length) = _
  rw [show (createEmptySoftBody m0 up0).nodes = [] from rfl, List.nil_append,
    nodeCoords_of_tripleGroups coords hmod, hc]

/-- C5 witness: appending one node from `[1, 2, 3]` and reading the
positions back into a four-float buffer returns `[1, 2, 3]` followed by the
untouched fourth float. -/
theorem nodesPositionsRoundTripWitness :
    getNodesPositions ((appendNodes (some (createEmptySoftBody 0 0)) [1, 2, 3]).2) [5, 6, 7, 9] =
      (none, [1, 2, 3] ++ ([(5 : JFloat), 6, 7, 9]).drop (3 * 1)) :=
  nodesPositionsRoundTrip 0 0 1 [1, 2, 3] [5, 6, 7, 9] (by decide) (by decide)

/-- C6: on a non-null body, `appendNodes` changes only the node collection:
`getNbNodes` afterwards returns exactly `C / 3` more than before, while
`getNbLinks`, `getNbFaces` and `getNbTetras` are unchanged. -/
theorem appendNodesFrameEffect :
    ∀ (b : SoftBody) (buf : List JFloat),
      getNbNodes ((appendNodes (some b) buf).2) =
        (none, (getNbNodes (some b)).2 + ((buf.length / 3 : Nat) : Int)) ∧
      getNbLinks ((appendNodes (some b) buf).2) = getNbLinks (some b) ∧
      getNbFaces ((appendNodes (some b) buf).2) = getNbFaces (some b) ∧
      getNbTetras ((appendNodes (some b) buf).2) = getNbTetras (some b) := by
  intro b buf
  refine ⟨?_, ?_, ?_, ?_⟩ <;>
    simp [appendNodes, appendNodesLoop_eq, getNbNodes, getNbLinks, getNbFaces, getNbTetras,
      tripleGroups_length]

/-- C7: on a non-null body, `setMasses` assigns `masses[i]` to node `i` for
every `i` below the mass buffer's capacity (iterating over the capacity, not
the node count), `getMasses` writes `getMass(i)` into the buffer over the
same range, and for buffers whose capacity equals the node count the
`getMasses`-after-`setMasses` round trip returns exactly the masses that were
set. -/
theorem massesSetGetRoundTrip :
    ∀ (b : SoftBody) (masses tpl : List JFloat),
      setMasses (some b) masses = (none, some (setMassesLoop b 0 masses)) ∧
      (∀ i, i < masses.length → i < b.nodes.length →
        (setMassesLoop b 0 masses).getMassAt i = masses.getD i 0) ∧
      getMasses (some b) tpl = (none, getMassesLoop b 0 tpl) ∧
      (∀ i, i < tpl.length → (getMassesLoop b 0 tpl)[i]? = some (b.getMassAt i)) ∧
      (masses.length = b.nodes.length → tpl.length = masses.length →
        getMasses ((setMasses (some b) masses).2) tpl = (none, masses)) := by
  intro b masses tpl
  refine ⟨rfl, ?_, rfl, ?_, ?_⟩
  · intro i hi hib
    have h := setMassesLoop_getMassAt masses b 0 i hi (by omega)
    simpa using h
  · intro i hi
    have h := getMassesLoop_getElem tpl b 0 i hi
    simpa using h
  · intro h1 h2
    show getMasses (some (setMassesLoop b 0 masses)) tpl = (none, masses)
    simp only [getMasses]
    rw [getMasses_after_setMasses tpl masses b 0 h2 (by omega)]

/-- C7 witness: on a two-node body, setting masses `[2, 5]` and reading them
back through a two-float buffer returns `[2, 5]`. -/
theorem massesSetGetRoundTripWitness :
    (setMassesLoop (appendNodesLoop (createEmptySoftBody 0 0) [0, 0, 0, 0, 0, 0]) 0
        [2, 5]).getMassAt 1 = ([(2 : JFloat), 5]).getD 1 0 ∧
    (getMassesLoop (appendNodesLoop (createEmptySoftBody 0 0) [0, 0, 0, 0, 0, 0]) 0
        [0, 0])[0]? =
      some ((appendNodesLoop (createEmptySoftBody 0 0) [0, 0, 0, 0, 0, 0]).getMassAt 0) ∧
    getMasses ((setMasses (some (appendNodesLoop (createEmptySoftBody 0 0)
        [0, 0, 0, 0, 0, 0])) [2, 5]).2) [0, 0] = (none, [2, 5]) := by
  have h := massesSetGetRoundTrip (appendNodesLoop (createEmptySoftBody 0 0)
    [0, 0, 0, 0, 0, 0]) [2, 5] [0, 0]
  exact ⟨h.2.1 1 (by decide) (by decide), h.2.2.2.1 0 (by decide),
    h.2.2.2.2 (by decide) (by decide)⟩

/-- C8: with non-null handles, `removeAnchor` removes at most one anchor: if
some anchor attaches node `nodeId` to the given rigid body, the lowest-indexed
such anchor is removed by swapping it with the last anchor and popping (the
anchor count drops by exactly one) and that node's `m_battach` is reset to
`0`; if no anchor matches both, the body is left completely unchanged. -/
theorem removeAnchorBehaviour :
    ∀ (b : SoftBody) (nid : Nat) (rid : RigidId), rid ≠ 0 →
      ((∀ a ∈ b.anchors, anchorMatches a nid rid = false) →
        removeAnchor (some b) nid rid = (none, some b)) ∧
      (∀ i, findMatchIdx nid rid b.anchors = some i →
        removeAnchor (some b) nid rid =
          (none, some { b with
                        anchors := swapPopAt b.anchors i,
                        nodes := updateNodeAt b.nodes nid
                          (fun nd => { nd with battach := 0 }) }) ∧
        (swapPopAt b.anchors i).length + 1 = b.anchors.length ∧
        (∃ a, b.anchors[i]? = some a ∧ anchorMatches a nid rid = true) ∧
        (∀ j, j < i → ∀ a, b.anchors[j]? = some a → anchorMatches a nid rid = false)) := by
  intro b nid rid hrid
  constructor
  · intro hall
    simp only [removeAnchor, if_neg hrid, findMatchIdx_none_of_all nid rid b.anchors hall]
  · intro i hfind
    obtain ⟨hlt, hex, hlow⟩ := findMatchIdx_some nid rid b.anchors i hfind
    refine ⟨?_, swapPopAt_length _ _ hlt, hex, hlow⟩
    simp only [removeAnchor, if_neg hrid, hfind]

/-- C8 witness: on the sample body, removing with an unanchored rigid handle
changes nothing, while removing node 0's anchor on rigid `7` swap-pops the
first anchor and resets that node's attachment flag. -/
theorem removeAnchorBehaviourWitness :
    (removeAnchor (some sampleAnchoredBody) 0 9 = (none, some sampleAnchoredBody)) ∧
    (removeAnchor (some sampleAnchoredBody) 0 7 =
      (none, some { sampleAnchoredBody with
                    anchors := swapPopAt sampleAnchoredBody.anchors 0,
                    nodes := updateNodeAt sampleAnchoredBody.nodes 0
                      (fun nd => { nd with battach := 0 }) }) ∧
      (swapPopAt sampleAnchoredBody.anchors 0).length + 1 =
        sampleAnchoredBody.anchors.length ∧
      (∃ a, sampleAnchoredBody.anchors[0]? = some a ∧ anchorMatches a 0 7 = true) ∧
      (∀ j, j < 0 → ∀ a, sampleAnchoredBody.anchors[j]? = some a →
        anchorMatches a 0 7 = false)) :=
  ⟨(removeAnchorBehaviour sampleAnchoredBody 0 9 (by decide)).1 (by decide),
    (removeAnchorBehaviour sampleAnchoredBody 0 7 (by decide)).2 0 (by decide)⟩

/-- C9: `createEmptySoftBody` returns a new empty soft body whose
collision-shape margin is `0`, whose user pointer is null, and which contains
exactly one material with `m_kLST = m_kAST = m_kVST = 1` and `m_flags = 0`,
whatever initial margin and user pointer the engine's constructor chose. -/
theorem createEmptySoftBodyDefaults :
    ∀ (m0 : JFloat) (up0 : Nat),
      (createEmptySoftBody m0 up0).margin = 0 ∧
      (createEmptySoftBody m0 up0).userPointer = 0 ∧
      (createEmptySoftBody m0 up0).materials = [Material.mk 1 1 1 0] ∧
      (createEmptySoftBody m0 up0).nodes = [] ∧
      (createEmptySoftBody m0 up0).links = [] ∧
      (createEmptySoftBody m0 up0).faces = [] ∧
      (createEmptySoftBody m0 up0).tetras = [] ∧
      (createEmptySoftBody m0 up0).anchors = [] ∧
      (createEmptySoftBody m0 up0).broadphaseHandle = 0 := by
  intro m0 up0
  exact ⟨rfl, rfl, rfl, rfl, rfl, rfl, rfl, rfl, rfl⟩

/-- C10: with non-null handles, `appendAnchor` passes the logical negation of
`collisionBetweenLinkedBodies` to the engine as the disable-collision flag and
selects the pivot-taking engine overload exactly when `localPivot` is
non-null; with a null pivot the pivot-less overload receives the same node
index, rigid body, negated flag and influence. -/
theorem appendAnchorDelegation :
    ∀ (b : SoftBody) (nid : Nat) (rid : RigidId) (p : Vector3f) (flag : Bool)
      (infl : JFloat), rid ≠ 0 →
      appendAnchor (some b) nid rid (some p) flag infl =
        (none, some (b.appendAnchorPivot nid rid (jmeBulletUtil.convert p) (!flag) infl)) ∧
      appendAnchor (some b) nid rid none flag infl =
        (none, some (b.appendAnchorNoPivot nid rid (!flag) infl)) := by
  intro b nid rid p flag infl hrid
  constructor <;> simp [appendAnchor, if_neg hrid]

/-- C10 witness: appending an anchor on the sample body with rigid handle `3`
takes the pivot overload when a pivot vector is given and the pivot-less one
when it is null, both with the negated collision flag. -/
theorem appendAnchorDelegationWitness :
    appendAnchor (some sampleAnchoredBody) 0 3 (some (Vector3f.mk 1 2 3)) true 1 =
      (none, some (sampleAnchoredBody.appendAnchorPivot 0 3
        (jmeBulletUtil.convert (Vector3f.mk 1 2 3)) (!true) 1)) ∧
    appendAnchor (some sampleAnchoredBody) 0 3 none true 1 =
      (none, some (sampleAnchoredBody.appendAnchorNoPivot 0 3 (!true) 1)) :=
  appendAnchorDelegation sampleAnchoredBody 0 3 (Vector3f.mk 1 2 3) true 1 (by decide)

end PhysicsSoftBody
